import Mathlib

/-!
# cycle-idb: the live-query selectors of `src/Store.js`

A shallow embedding of the selector logic of `Store.js`: the trigger filters of
the plain and the index-scoped selectors, the producer built by `DbSelector`,
and the two store re-readers `ReadDbListener` and `ReadDbIndexListener`.

Streams of the `xstream` runtime are represented by their finite histories
(the notifications they have delivered so far, in order); asynchronous
functions by the state of their suspended invocations.
-/

namespace CycleIdb

/-! ## Data model -/

/-- JavaScript values occurring as record keys and index values. Valid IndexedDB keys
are restricted here to strings and integers, on which `===` is structural equality;
`undefined` stands for an absent key argument and an absent index value. -/
inductive JSVal where
  | undefined
  | str (s : String)
  | num (n : Int)
  deriving DecidableEq, Repr

/-- Errors raised while a selector runs: the `TypeError` of a property read on
`undefined`, and a rejection coming from the database (opening it, or a request). -/
inductive JSError where
  | typeError
  | storeError (msg : String)
  deriving DecidableEq, Repr

deriving instance DecidableEq for Except

/-- One entry `{ oldValue, newValue }` of a mutation's `indexes` object. -/
structure IndexEntry where
  oldValue : JSVal
  newValue : JSVal
  deriving DecidableEq, Repr

/-- The `result` payload of a mutation event. `indexes` lists the own properties of the
JavaScript object, so `indexes.lookup n` is `result.indexes[n]` and `none` is `undefined`
(index names are taken not to be names of properties inherited from `Object.prototype`). -/
structure Result where
  operation : String
  key : JSVal
  indexes : List (String × IndexEntry)
  deriving DecidableEq, Repr

/-- A mutation event `{ result }` as delivered on `result$`. -/
structure Event where
  result : Result
  deriving DecidableEq, Repr

/-- A stream notification: a value, or the error that ends the stream. -/
inductive Notif (α : Type) where
  | next (a : α)
  | error (e : JSError)
  deriving DecidableEq, Repr

/-- What the store re-reader is triggered with: the `1` of `startWith(1)`, or an event. -/
inductive Trigger where
  | seed
  | event (ev : Event)
  deriving DecidableEq, Repr

/-! ## Trigger filters -/

/-- `result.indexes.hasOwnProperty(indexName)`. -/
def hasOwnProperty (ev : Event) (indexName : String) : Bool :=
  (ev.result.indexes.lookup indexName).isSome

/-- The object `result.indexes[indexName]` as the receiver of a property read:
reading `.oldValue` or `.newValue` of `undefined` throws a `TypeError`. -/
def readEntry (ev : Event) (indexName : String) : Except JSError IndexEntry :=
  match ev.result.indexes.lookup indexName with
  | some entry => .ok entry
  | none => .error JSError.typeError

/-- `const xor = (a, b) => (a || b) && !(a && b)`. -/
def xor (a b : Bool) : Bool := (a || b) && !(a && b)

/-- `filterByKey(key)` of `IndexSelector`:
`key === undefined || indexes[indexName].oldValue === key || indexes[indexName].newValue === key`. -/
def filterByKey (indexName : String) (key : JSVal) (ev : Event) : Except JSError Bool :=
  if key = JSVal.undefined then .ok true
  else
    match readEntry ev indexName with
    | .error e => .error e
    | .ok entry =>
      if entry.oldValue = key then .ok true
      else
        match readEntry ev indexName with
        | .error e => .error e
        | .ok entry2 => .ok (decide (entry2.newValue = key))

/-- The second filter of `IndexSelector(...).getAllKeys(key)`:
`xor(indexes[indexName].oldValue !== key, indexes[indexName].newValue !== key)`. -/
def xorFilter (indexName : String) (key : JSVal) (ev : Event) : Except JSError Bool :=
  match readEntry ev indexName with
  | .error e => .error e
  | .ok entry =>
    match readEntry ev indexName with
    | .error e => .error e
    | .ok entry2 => .ok (xor (decide (entry.oldValue ≠ key)) (decide (entry2.newValue ≠ key)))

/-- `resultIsInsertedOrDeleted`. -/
def resultIsInsertedOrDeleted (ev : Event) : Bool :=
  ev.result.operation == "inserted" || ev.result.operation == "deleted"

/-- A chain `.filter(f1).filter(f2)...` evaluated on one event: the predicates run in
order, the first falsy result rejects the event, a thrown error is the outcome. -/
def passes : List (Event → Except JSError Bool) → Event → Except JSError Bool
  | [], _ => .ok true
  | f :: fs, ev =>
    match f ev with
    | .ok true => passes fs ev
    | .ok false => .ok false
    | .error e => .error e

/-! ## Stream operators of the runtime, on histories -/

/-- Map the values of a notification. -/
def Notif.map {α β : Type} (g : α → β) : Notif α → Notif β
  | .next a => .next (g a)
  | .error e => .error e

namespace Xs

/-- `stream.filter(f)`: values on which `f` is truthy pass; a predicate that throws puts
the error on the output and ends it; an error of the input ends the output. -/
def filter {α : Type} (f : α → Except JSError Bool) : List (Notif α) → List (Notif α)
  | [] => []
  | .error e :: _ => [.error e]
  | .next a :: rest =>
    match f a with
    | .ok true => .next a :: filter f rest
    | .ok false => filter f rest
    | .error e => [.error e]

/-- `stream.startWith(v)`: `v` is delivered first, then the input. -/
def startWith {α : Type} (v : α) (s : List (Notif α)) : List (Notif α) :=
  .next v :: s

/-- The state `v` of the `dropRepeats()` operator (`none` is its `empty` sentinel) run over
the input: a value `===` to the last one passed on is dropped, an error ends the output. -/
def dropRepeatsFrom {α : Type} [DecidableEq α] : Option α → List (Notif α) → List (Notif α)
  | _, [] => []
  | _, .error e :: _ => [.error e]
  | v, .next t :: rest =>
    if v = some t then dropRepeatsFrom v rest
    else .next t :: dropRepeatsFrom (some t) rest

/-- `stream.compose(dropRepeats())`. -/
def dropRepeats {α : Type} [DecidableEq α] (s : List (Notif α)) : List (Notif α) :=
  dropRepeatsFrom none s

/-- What a listener that stays subscribed receives of the calls made on a stream:
everything up to and including the first error, which ends the stream. -/
def delivered {α : Type} : List (Notif α) → List (Notif α)
  | [] => []
  | .error e :: _ => [.error e]
  | .next a :: rest => .next a :: delivered rest

end Xs

/-! ## Selectors -/

/-- The two store re-readers. -/
inductive ListenerKind where
  | ReadDbListener
  | ReadDbIndexListener
  deriving DecidableEq, Repr

/-- The `options` object handed to a listener (without `dbPromise`, which is a parameter
of the run). A property that the object literal does not set is `none` / `undefined`. -/
structure Options where
  storeName : String
  indexName : Option String
  key : JSVal
  operation : String
  deriving DecidableEq, Repr

/-- What a selector is built from: the `.filter(...)` chain applied to the collection's
`result$` to obtain the stream given to `DbSelector`, the listener constructor and options
given to `DbSelector`, and whether `.compose(dropRepeats())` follows. -/
structure Selector where
  filters : List (Event → Except JSError Bool)
  Listener : ListenerKind
  options : Options
  dropRepeats : Bool

/-- `DbSelector(result$, Listener, options)`, `result$` being the collection's stream
behind the given filter chain. -/
def DbSelector (filters : List (Event → Except JSError Bool)) (Listener : ListenerKind)
    (options : Options) : Selector :=
  { filters := filters, Listener := Listener, options := options, dropRepeats := false }

/-- A selector followed by `.compose(dropRepeats())`. -/
def Selector.composeDropRepeats (sel : Selector) : Selector :=
  { sel with dropRepeats := true }

/-- `GetSelector`: filter `result.key === key`. -/
def GetSelector (storeName : String) (key : JSVal) : Selector :=
  DbSelector [fun ev => .ok (decide (ev.result.key = key))] .ReadDbListener
    { storeName := storeName, indexName := none, key := key, operation := "get" }

/-- `GetAllSelector`: no filter. -/
def GetAllSelector (storeName : String) : Selector :=
  DbSelector [] .ReadDbListener
    { storeName := storeName, indexName := none, key := .undefined, operation := "getAll" }

/-- `CountSelector`: no filter, followed by `dropRepeats()`. -/
def CountSelector (storeName : String) : Selector :=
  (DbSelector [] .ReadDbListener
    { storeName := storeName, indexName := none, key := .undefined,
      operation := "count" }).composeDropRepeats

/-- `GetAllKeysSelector`: filter `resultIsInsertedOrDeleted`. -/
def GetAllKeysSelector (storeName : String) : Selector :=
  DbSelector [fun ev => .ok (resultIsInsertedOrDeleted ev)] .ReadDbListener
    { storeName := storeName, indexName := none, key := .undefined, operation := "getAllKeys" }

namespace IndexSelector

/-- `IndexSelector(...).getAll(key)`. -/
def getAll (storeName indexName : String) (key : JSVal) : Selector :=
  DbSelector [filterByKey indexName key] .ReadDbIndexListener
    { storeName := storeName, indexName := some indexName, key := key, operation := "getAll" }

/-- `IndexSelector(...).get(key)`. -/
def get (storeName indexName : String) (key : JSVal) : Selector :=
  DbSelector [filterByKey indexName key] .ReadDbIndexListener
    { storeName := storeName, indexName := some indexName, key := key, operation := "get" }

/-- `IndexSelector(...).count(key)`, followed by `dropRepeats()`. -/
def count (storeName indexName : String) (key : JSVal) : Selector :=
  (DbSelector [filterByKey indexName key] .ReadDbIndexListener
    { storeName := storeName, indexName := some indexName, key := key,
      operation := "count" }).composeDropRepeats

/-- `IndexSelector(...).getAllKeys(key)`: the three chained filters. -/
def getAllKeys (storeName indexName : String) (key : JSVal) : Selector :=
  DbSelector
    [fun ev => .ok (hasOwnProperty ev indexName), xorFilter indexName key,
      filterByKey indexName key]
    .ReadDbIndexListener
    { storeName := storeName, indexName := some indexName, key := key,
      operation := "getAllKeys" }

end IndexSelector

/-- The stream given to `DbSelector`: the collection's events behind the filter chain. -/
def Selector.filtered (sel : Selector) (evs : List Event) : List (Notif Event) :=
  Xs.filter (passes sel.filters) (evs.map Notif.next)

/-- The notifications that `start` of `DbSelector` hands to the listener it registers:
those of `result$.startWith(1)`. -/
def Selector.triggers (sel : Selector) (evs : List Event) : List (Notif Trigger) :=
  Xs.startWith Trigger.seed ((sel.filtered evs).map (Notif.map Trigger.event))

/-- What observers of the selector receive of the calls `listener.next(data)` and
`listener.error(e)` made on the stream of `DbSelector`: the calls up to the first error,
behind `dropRepeats()` where the selector composes it. -/
def Selector.emitted {V : Type} [DecidableEq V] (sel : Selector) (calls : List (Notif V)) :
    List (Notif V) :=
  if sel.dropRepeats then Xs.dropRepeats (Xs.delivered calls) else Xs.delivered calls

/-! ## Store re-readers -/

/-- A request made to the store by a listener:
`db.transaction(storeName).objectStore(storeName)[operation](key)`, through
`.index(indexName)` when `indexName` is set. -/
structure ReadRequest where
  storeName : String
  indexName : Option String
  operation : String
  key : JSVal
  deriving DecidableEq, Repr

/-- The invocations of the async function `next` of one listener object that are
suspended, by suspension point, and the store requests the listener has made so far. -/
structure ListenerState where
  awaitingDb : Nat
  awaitingRead : Nat
  reads : List ReadRequest
  deriving DecidableEq, Repr

/-- The listener as registered: nothing in flight, nothing read. -/
def ListenerState.init : ListenerState :=
  { awaitingDb := 0, awaitingRead := 0, reads := [] }

/-- What happens to a listener object: the stream calls `next(value)` or `error(e)`, or
one suspended invocation of `next` resumes, from `await dbPromise` or from the await of
its store request (with the outcome of that request). -/
inductive Step (V : Type) where
  | next (value : Trigger)
  | error (e : JSError)
  | dbSettled
  | readSettled (r : Except JSError V)

/-- `ReadDbListener(listener, { dbPromise, storeName, operation, key })`: the new state and
the calls made on `listener` by the step. `next` ignores its argument and suspends at
`await dbPromise`; resumed with the database it makes the store request and suspends
again, resumed with a rejection it calls `listener.error(e)`; resumed from the request
it calls `listener.next(data)`, or `listener.error(e)` from the `catch`. -/
def ReadDbListener {V : Type} (dbPromise : Except JSError Unit) (options : Options)
    (s : ListenerState) : Step V → ListenerState × List (Notif V)
  | .next _ => ({ s with awaitingDb := s.awaitingDb + 1 }, [])
  | .error e => (s, [.error e])
  | .dbSettled =>
    if s.awaitingDb = 0 then (s, [])
    else
      match dbPromise with
      | .ok _ =>
        ({ awaitingDb := s.awaitingDb - 1, awaitingRead := s.awaitingRead + 1,
           reads := s.reads ++ [{ storeName := options.storeName, indexName := none,
                                  operation := options.operation, key := options.key }] }, [])
      | .error e => ({ s with awaitingDb := s.awaitingDb - 1 }, [.error e])
  | .readSettled r =>
    if s.awaitingRead = 0 then (s, [])
    else
      match r with
      | .ok data => ({ s with awaitingRead := s.awaitingRead - 1 }, [.next data])
      | .error e => ({ s with awaitingRead := s.awaitingRead - 1 }, [.error e])

/-- `ReadDbIndexListener(listener, { dbPromise, storeName, indexName, operation, key })`:
as `ReadDbListener`, the store request going through `.index(indexName)`. -/
def ReadDbIndexListener {V : Type} (dbPromise : Except JSError Unit) (options : Options)
    (s : ListenerState) : Step V → ListenerState × List (Notif V)
  | .next _ => ({ s with awaitingDb := s.awaitingDb + 1 }, [])
  | .error e => (s, [.error e])
  | .dbSettled =>
    if s.awaitingDb = 0 then (s, [])
    else
      match dbPromise with
      | .ok _ =>
        ({ awaitingDb := s.awaitingDb - 1, awaitingRead := s.awaitingRead + 1,
           reads := s.reads ++ [{ storeName := options.storeName,
                                  indexName := options.indexName,
                                  operation := options.operation, key := options.key }] }, [])
      | .error e => ({ s with awaitingDb := s.awaitingDb - 1 }, [.error e])
  | .readSettled r =>
    if s.awaitingRead = 0 then (s, [])
    else
      match r with
      | .ok data => ({ s with awaitingRead := s.awaitingRead - 1 }, [.next data])
      | .error e => ({ s with awaitingRead := s.awaitingRead - 1 }, [.error e])

/-- `Listener(listener, options)` for the listener constructor named by `kind`. -/
def listenerStep {V : Type} (kind : ListenerKind) (dbPromise : Except JSError Unit)
    (options : Options) (s : ListenerState) (st : Step V) : ListenerState × List (Notif V) :=
  match kind with
  | .ReadDbListener => ReadDbListener dbPromise options s st
  | .ReadDbIndexListener => ReadDbIndexListener dbPromise options s st

/-- A listener run over a schedule of steps: the final state and all calls made on
`listener`, in order. -/
def runListener {V : Type} (kind : ListenerKind) (dbPromise : Except JSError Unit)
    (options : Options) : ListenerState → List (Step V) → ListenerState × List (Notif V)
  | s, [] => (s, [])
  | s, st :: rest =>
    let r := listenerStep kind dbPromise options s st
    let r2 := runListener kind dbPromise options r.1 rest
    (r2.1, r.2 ++ r2.2)

/-- The steps that come from the stream the listener is registered on. -/
def Step.isUpstream {V : Type} : Step V → Bool
  | .next _ => true
  | .error _ => true
  | .dbSettled => false
  | .readSettled _ => false

/-- The calls of `next`. -/
def Step.isNext {V : Type} : Step V → Bool
  | .next _ => true
  | _ => false

/-- The notifications of the trigger stream as steps of the listener registered on it. -/
def upstreamSteps {V : Type} : List (Notif Trigger) → List (Step V)
  | [] => []
  | .next t :: rest => Step.next t :: upstreamSteps rest
  | .error e :: rest => Step.error e :: upstreamSteps rest

/-- The selector's listener, freshly registered by `start`, run over a schedule. -/
def Selector.run {V : Type} (sel : Selector) (dbPromise : Except JSError Unit)
    (sched : List (Step V)) : ListenerState × List (Notif V) :=
  runListener sel.Listener dbPromise sel.options ListenerState.init sched

/-! ## The stream made by `DbSelector` -/

/-- The stream made by `xs.createWithMemory`, as the `listener` handed to `start`: its
attached listeners `ils`, the error it has recorded, the value it has memoized, and the
log of what it has handed to which listener, in order. -/
structure MemStream (O V : Type) where
  ils : List O
  err : Option JSError
  memo : Option V
  log : List (O × Notif V)

/-- `listener.next(data)`: the value is memoized and handed to every attached listener. -/
def MemStream.next {O V : Type} (m : MemStream O V) (data : V) : MemStream O V :=
  { m with memo := some data, log := m.log ++ m.ils.map (fun o => (o, Notif.next data)) }

/-- `listener.error(e)`: ignored while an error is recorded; otherwise the error is
recorded and the memoized value forgotten, and when listeners are attached they are all
removed, the record is cleared, and each of them is handed the error. -/
def MemStream.error {O V : Type} (m : MemStream O V) (e : JSError) : MemStream O V :=
  match m.err with
  | some _ => m
  | none =>
    match m.ils with
    | [] => { m with err := some e, memo := none }
    | o :: os =>
      { ils := [], err := none, memo := none,
        log := m.log ++ (o :: os).map (fun o2 => (o2, Notif.error e)) }

/-- A sequence of calls made on `listener`. -/
def MemStream.feed {O V : Type} (m : MemStream O V) : List (Notif V) → MemStream O V
  | [] => m
  | .next data :: rest => (m.next data).feed rest
  | .error e :: rest => (m.error e).feed rest

/-- One subscription of a selector: the listener registered by `start` and the stream it
feeds. -/
structure LiveQuery (O V : Type) where
  reader : ListenerState
  listener : MemStream O V

/-- A step of the registered listener, its calls on `listener` carried out. -/
def LiveQuery.step {O V : Type} (sel : Selector) (dbPromise : Except JSError Unit)
    (q : LiveQuery O V) (st : Step V) : LiveQuery O V :=
  let r := listenerStep sel.Listener dbPromise sel.options q.reader st
  { reader := r.1, listener := q.listener.feed r.2 }

/-- A schedule of steps. -/
def LiveQuery.run {O V : Type} (sel : Selector) (dbPromise : Except JSError Unit) :
    LiveQuery O V → List (Step V) → LiveQuery O V
  | q, [] => q
  | q, st :: rest => LiveQuery.run sel dbPromise (LiveQuery.step sel dbPromise q st) rest

/-! ## The producer of `DbSelector` -/

/-- The producer `{ start, stop }` given to `xs.createWithMemory` by `DbSelector`: the
listener objects that runs of `start` have registered on `result$.startWith(1)` and that
are still registered there. -/
structure Producer where
  registered : List ListenerState
  deriving DecidableEq, Repr

/-- What happens to the producer: the stream runs `start` (its first observer attached)
or `stop` (the last one detached), `result$` delivers an event, or a suspended invocation
of registered listener `j` resumes. -/
inductive ProducerStep (V : Type) where
  | start
  | stop
  | result (ev : Event)
  | dbSettled (j : Nat)
  | readSettled (j : Nat) (r : Except JSError V)

/-- Apply `f` to element `j` of a list. -/
def updateAt {α : Type} (f : α → α) : List α → Nat → List α
  | [], _ => []
  | a :: as, 0 => f a :: as
  | a :: as, j + 1 => a :: updateAt f as j

/-- `start: listener => result$.startWith(1).addListener(Listener(listener, options))`
registers a new listener object, which receives the seed at once; `stop: () => {}` does
nothing; an event of `result$` reaches every registered listener. -/
def Producer.step {V : Type} (kind : ListenerKind) (dbPromise : Except JSError Unit)
    (options : Options) (p : Producer) : ProducerStep V → Producer
  | .start =>
    { registered := p.registered ++
        [(listenerStep kind dbPromise options ListenerState.init
            (Step.next Trigger.seed : Step V)).1] }
  | .stop => p
  | .result ev =>
    { registered := p.registered.map (fun l =>
        (listenerStep kind dbPromise options l (Step.next (Trigger.event ev) : Step V)).1) }
  | .dbSettled j =>
    { registered := updateAt (fun l =>
        (listenerStep kind dbPromise options l (Step.dbSettled : Step V)).1) p.registered j }
  | .readSettled j r =>
    { registered := updateAt (fun l =>
        (listenerStep kind dbPromise options l (Step.readSettled r)).1) p.registered j }

/-- A schedule of producer steps. -/
def Producer.run {V : Type} (kind : ListenerKind) (dbPromise : Except JSError Unit)
    (options : Options) : Producer → List (ProducerStep V) → Producer
  | p, [] => p
  | p, st :: rest =>
    Producer.run kind dbPromise options (Producer.step kind dbPromise options p st) rest

/-- Store requests made so far by all listeners of the producer. -/
def Producer.totalReads (p : Producer) : Nat :=
  (p.registered.map (fun l => l.reads.length)).sum

/-- Store reads triggered so far at the producer: the requests made, and the invocations
of `next` suspended at `await dbPromise`, each of which makes its request on resuming. -/
def Producer.triggered (p : Producer) : Nat :=
  (p.registered.map (fun l => l.reads.length + l.awaitingDb)).sum

/-- The runs of `start` in a schedule. -/
def countStarts {V : Type} : List (ProducerStep V) → Nat
  | [] => 0
  | .start :: rest => countStarts rest + 1
  | _ :: rest => countStarts rest

/-- The producer once every invocation suspended at `await dbPromise` has resumed. -/
def Producer.settle (V : Type) (kind : ListenerKind) (dbPromise : Except JSError Unit)
    (options : Options) (p : Producer) : Producer :=
  { registered := p.registered.map (fun l =>
      (runListener kind dbPromise options l
        (List.replicate l.awaitingDb (Step.dbSettled : Step V))).1) }

/-! ## Reference definitions -/

/-- A sequence with each run of adjacent equal values collapsed to its first element. -/
def collapseRuns {α : Type} [DecidableEq α] : List α → List α
  | [] => []
  | [x] => [x]
  | x :: y :: rest =>
    if x = y then collapseRuns (x :: rest) else x :: collapseRuns (y :: rest)
termination_by l => l.length

/-- The values among notifications. -/
def values {α : Type} : List (Notif α) → List α
  | [] => []
  | .next a :: rest => a :: values rest
  | .error _ :: rest => values rest

/-! ## Trigger filters of the index selectors -/

/-- C1: the trigger filter of `IndexSelector(...).getAllKeys(key)` (entry present, xor,
`filterByKey`) never raises, and accepts an event exactly when its `indexes` has an entry
for the index name and exactly one of `oldValue !== key`, `newValue !== key` holds; with
key `"b@x.com"` it accepts the transition from `"a@x.com"` to `"b@x.com"` and rejects the
transition from `"b@x.com"` to `"b@x.com"`. -/
theorem getAllKeys_filter_iff_xor (storeName indexName : String) (key : JSVal) (ev : Event) :
    (∃ b, passes (IndexSelector.getAllKeys storeName indexName key).filters ev = .ok b) ∧
    (passes (IndexSelector.getAllKeys storeName indexName key).filters ev = .ok true ↔
      ∃ entry, ev.result.indexes.lookup indexName = some entry ∧
        ((entry.oldValue ≠ key ∧ ¬ entry.newValue ≠ key) ∨
         (¬ entry.oldValue ≠ key ∧ entry.newValue ≠ key))) ∧
    passes (IndexSelector.getAllKeys "users" "byEmail" (.str "b@x.com")).filters
      ⟨⟨"updated", .num 1, [("byEmail", ⟨.str "a@x.com", .str "b@x.com"⟩)]⟩⟩ = .ok true ∧
    passes (IndexSelector.getAllKeys "users" "byEmail" (.str "b@x.com")).filters
      ⟨⟨"updated", .num 1, [("byEmail", ⟨.str "b@x.com", .str "b@x.com"⟩)]⟩⟩ = .ok false := by
  refine ⟨?_, ?_, by decide, by decide⟩
  · simp only [IndexSelector.getAllKeys, DbSelector, passes, hasOwnProperty, xorFilter,
      filterByKey, readEntry]
    cases h : ev.result.indexes.lookup indexName with
    | none => exact ⟨false, by simp⟩
    | some entry =>
      by_cases h3 : key = JSVal.undefined
      · subst h3
        by_cases h1 : entry.oldValue = JSVal.undefined <;>
          by_cases h2 : entry.newValue = JSVal.undefined <;> simp [h1, h2, xor]
      · by_cases h1 : entry.oldValue = key <;> by_cases h2 : entry.newValue = key <;>
          simp [h1, h2, h3, xor]
  · simp only [IndexSelector.getAllKeys, DbSelector, passes, hasOwnProperty, xorFilter,
      filterByKey, readEntry]
    cases h : ev.result.indexes.lookup indexName with
    | none => simp
    | some entry =>
      by_cases h3 : key = JSVal.undefined
      · subst h3
        by_cases h1 : entry.oldValue = JSVal.undefined <;>
          by_cases h2 : entry.newValue = JSVal.undefined <;> simp [h1, h2, xor]
      · by_cases h1 : entry.oldValue = key <;> by_cases h2 : entry.newValue = key <;>
          simp [h1, h2, h3, xor]

/-- On an event whose `indexes` has an entry for the index name, `filterByKey` raises
nothing and accepts exactly when no key was requested or the entry's old or new value is
the key. -/
theorem filterByKey_of_entry (indexName : String) (key : JSVal) (ev : Event)
    (entry : IndexEntry) (h : ev.result.indexes.lookup indexName = some entry) :
    filterByKey indexName key ev =
      .ok (decide (key = JSVal.undefined ∨ entry.oldValue = key ∨ entry.newValue = key)) := by
  simp only [filterByKey, readEntry, h]
  by_cases h3 : key = JSVal.undefined
  · simp [h3]
  · by_cases h1 : entry.oldValue = key <;> simp [h1, h3]

/-- C2: `filterByKey`, the whole trigger filter of the index-scoped get, getAll and count,
makes no existence check. On an event without an entry for the index name it raises a
`TypeError` when a key is requested and accepts the event when none is, where the claim
has it reject both; the filter chain of getAllKeys, which checks `hasOwnProperty` first,
rejects both. On events that have the entry it accepts exactly as claimed. -/
theorem filterByKey_no_existence_check :
    filterByKey "byEmail" (.str "a@x.com") ⟨⟨"deleted", .num 1, []⟩⟩
      = .error JSError.typeError ∧
    filterByKey "byEmail" .undefined ⟨⟨"deleted", .num 1, []⟩⟩ = .ok true ∧
    passes (IndexSelector.getAllKeys "users" "byEmail" (.str "a@x.com")).filters
      ⟨⟨"deleted", .num 1, []⟩⟩ = .ok false ∧
    passes (IndexSelector.getAllKeys "users" "byEmail" .undefined).filters
      ⟨⟨"deleted", .num 1, []⟩⟩ = .ok false ∧
    (∀ (indexName : String) (key : JSVal) (ev : Event) (entry : IndexEntry),
      ev.result.indexes.lookup indexName = some entry →
      (filterByKey indexName key ev = .ok true ↔
        (key = JSVal.undefined ∨ entry.oldValue = key ∨ entry.newValue = key))) := by
  refine ⟨by decide, by decide, by decide, by decide, ?_⟩
  intro indexName key ev entry h
  rw [filterByKey_of_entry indexName key ev entry h]
  simp

/-- C3: on an event without an entry for the index name, the trigger filters of the
index-scoped get, getAll and count raise a `TypeError` when a key is requested (and accept
the event when none is), and the error ends the trigger stream, so that a later matching
event triggers nothing; only getAllKeys, which checks `hasOwnProperty` first, raises
nothing and rejects the event. -/
theorem index_filters_on_missing_entry :
    passes (IndexSelector.get "users" "byEmail" (.str "a@x.com")).filters
      ⟨⟨"deleted", .num 1, []⟩⟩ = .error JSError.typeError ∧
    passes (IndexSelector.getAll "users" "byEmail" (.str "a@x.com")).filters
      ⟨⟨"deleted", .num 1, []⟩⟩ = .error JSError.typeError ∧
    passes (IndexSelector.count "users" "byEmail" (.str "a@x.com")).filters
      ⟨⟨"deleted", .num 1, []⟩⟩ = .error JSError.typeError ∧
    passes (IndexSelector.get "users" "byEmail" .undefined).filters
      ⟨⟨"deleted", .num 1, []⟩⟩ = .ok true ∧
    (IndexSelector.get "users" "byEmail" (.str "a@x.com")).triggers
      [⟨⟨"deleted", .num 1, []⟩⟩,
       ⟨⟨"inserted", .num 2, [("byEmail", ⟨.undefined, .str "a@x.com"⟩)]⟩⟩]
      = [.next Trigger.seed, .error JSError.typeError] ∧
    (∀ (storeName indexName : String) (key : JSVal) (ev : Event),
      ev.result.indexes.lookup indexName = none →
      passes (IndexSelector.getAllKeys storeName indexName key).filters ev = .ok false) := by
  refine ⟨by decide, by decide, by decide, by decide, by decide, ?_⟩
  intro storeName indexName key ev h
  simp [IndexSelector.getAllKeys, DbSelector, passes, hasOwnProperty, h]

/-! ## Triggers and store reads -/

/-- A filter that raises nothing on the events passes exactly those it accepts, in order. -/
theorem filter_of_total (f : Event → Except JSError Bool) (evs : List Event)
    (hf : ∀ ev ∈ evs, ∃ b, f ev = .ok b) :
    Xs.filter f (evs.map Notif.next) =
      (evs.filter (fun ev => decide (f ev = .ok true))).map Notif.next := by
  induction evs with
  | nil => rfl
  | cons ev rest ih =>
    have ih2 := ih (fun e he => hf e (List.mem_cons_of_mem _ he))
    obtain ⟨b, hb⟩ := hf ev (List.mem_cons_self _ _)
    cases b <;> simp [Xs.filter, hb, ih2]

/-- The triggers of a selector whose filter raises nothing on the events: the seed, then
the accepted events in their order. -/
theorem triggers_of_total (sel : Selector) (evs : List Event)
    (hf : ∀ ev ∈ evs, ∃ b, passes sel.filters ev = .ok b) :
    sel.triggers evs = Notif.next Trigger.seed ::
      (evs.filter (fun ev => decide (passes sel.filters ev = .ok true))).map
        (fun ev => Notif.next (Trigger.event ev)) := by
  simp [Selector.triggers, Selector.filtered, Xs.startWith, filter_of_total _ _ hf,
    List.map_map, Function.comp_def, Notif.map]

/-- With the database opened, one step of a listener keeps the sum of the store requests
made and the invocations still waiting for the database, a call of `next` adding one. -/
theorem listenerStep_reads {V : Type} (kind : ListenerKind) (options : Options)
    (s : ListenerState) (st : Step V) :
    (listenerStep kind (.ok ()) options s st).1.reads.length +
        (listenerStep kind (.ok ()) options s st).1.awaitingDb =
      s.reads.length + s.awaitingDb + (if st.isNext then 1 else 0) := by
  cases kind <;> cases st <;>
    simp only [listenerStep, ReadDbListener, ReadDbIndexListener, Step.isNext] <;>
    (repeat' split) <;> (try simp_all) <;> (try omega)

/-- With the database opened, a schedule keeps the sum of the store requests made and
the invocations still waiting for the database, each call of `next` adding one. -/
theorem runListener_reads {V : Type} (kind : ListenerKind) (options : Options)
    (s : ListenerState) (sched : List (Step V)) :
    (runListener kind (.ok ()) options s sched).1.reads.length +
        (runListener kind (.ok ()) options s sched).1.awaitingDb =
      s.reads.length + s.awaitingDb + (sched.filter Step.isNext).length := by
  induction sched generalizing s with
  | nil => simp [runListener]
  | cons st rest ih =>
    have h1 := listenerStep_reads kind options s st
    have h2 := ih (listenerStep kind (.ok ()) options s st).1
    simp only [runListener]
    cases hst : st.isNext <;> simp [List.filter, hst] at h1 h2 ⊢ <;> omega

/-- The calls of `next` among the steps that come from a trigger stream are its values. -/
theorem upstreamSteps_next {V : Type} (trig : List (Notif Trigger)) :
    ((upstreamSteps trig : List (Step V)).filter Step.isNext).length =
      (values trig).length := by
  induction trig with
  | nil => rfl
  | cons n rest ih => cases n <;> simp [upstreamSteps, values, Step.isNext, ih]

/-- The calls of `next` in a schedule are those among its upstream steps. -/
theorem filter_isNext_upstream {V : Type} (sched : List (Step V)) :
    (sched.filter Step.isUpstream).filter Step.isNext = sched.filter Step.isNext := by
  induction sched with
  | nil => rfl
  | cons st rest ih => cases st <;> simp [List.filter, Step.isUpstream, Step.isNext, ih]

/-- With the database opened, once no invocation waits for the database any more, a
listener has made one store request for each value of its trigger stream. -/
theorem reads_of_schedule {V : Type} (sel : Selector) (trig : List (Notif Trigger))
    (sched : List (Step V))
    (hs : sched.filter Step.isUpstream = upstreamSteps trig)
    (hq : (sel.run (.ok ()) sched).1.awaitingDb = 0) :
    (sel.run (.ok ()) sched).1.reads.length = (values trig).length := by
  have h := runListener_reads sel.Listener sel.options ListenerState.init sched
  rw [← filter_isNext_upstream, hs, upstreamSteps_next] at h
  simp only [Selector.run] at hq ⊢
  rw [hq] at h
  simpa [ListenerState.init] using h

/-- The values of a stream of values. -/
theorem values_map_next {α β : Type} (g : α → β) (l : List α) :
    values (l.map (fun a => Notif.next (g a))) = l.map g := by
  induction l with
  | nil => rfl
  | cons a rest ih => simp [values, ih]

/-- The filter of `GetSelector` raises nothing and compares the keys. -/
theorem passes_get (storeName : String) (key : JSVal) (ev : Event) :
    passes (GetSelector storeName key).filters ev = .ok (decide (ev.result.key = key)) := by
  by_cases h : ev.result.key = key <;> simp [GetSelector, DbSelector, passes, h]

/-- The filter of `GetAllKeysSelector` raises nothing and is `resultIsInsertedOrDeleted`. -/
theorem passes_getAllKeys (storeName : String) (ev : Event) :
    passes (GetAllKeysSelector storeName).filters ev = .ok (resultIsInsertedOrDeleted ev) := by
  cases h : resultIsInsertedOrDeleted ev <;> simp [GetAllKeysSelector, DbSelector, passes, h]

/-- C4: with the database opened, a live `get(key)` has made exactly `1 + m` store
requests once every trigger delivered has reached the store, `m` being the number of the
events whose key is the requested key, whatever the schedule of the reads; when no
event has the requested key the store is read exactly once, for the seed. -/
theorem get_store_reads (V : Type) (storeName : String) (key : JSVal) (evs : List Event)
    (sched : List (Step V))
    (hs : sched.filter Step.isUpstream = upstreamSteps ((GetSelector storeName key).triggers evs))
    (hq : ((GetSelector storeName key).run (.ok ()) sched).1.awaitingDb = 0) :
    ((GetSelector storeName key).run (.ok ()) sched).1.reads.length =
        1 + (evs.filter (fun ev => decide (ev.result.key = key))).length ∧
    ((∀ ev ∈ evs, ev.result.key ≠ key) →
      ((GetSelector storeName key).run (.ok ()) sched).1.reads.length = 1) := by
  have hr := reads_of_schedule (GetSelector storeName key) _ sched hs hq
  rw [triggers_of_total _ _ (fun ev _ => ⟨_, passes_get storeName key ev⟩)] at hr
  simp only [values, values_map_next, List.length_cons, List.length_map, passes_get] at hr
  have hc : (evs.filter (fun ev => decide (Except.ok (decide (ev.result.key = key))
      = (Except.ok true : Except JSError Bool)))) =
      evs.filter (fun ev => decide (ev.result.key = key)) := by
    congr 1
    funext ev
    by_cases h : ev.result.key = key <;> simp [h]
  rw [hc] at hr
  refine ⟨by omega, fun hne => ?_⟩
  have h0 : evs.filter (fun ev => decide (ev.result.key = key)) = [] := by
    rw [List.filter_eq_nil_iff]
    intro ev hev
    simpa using hne ev hev
  rw [h0] at hr
  simpa using hr

/-- The hypotheses of `get_store_reads` hold of a schedule in which two events with the
requested key arrive while the seed read is done, and the count is three. -/
theorem get_store_reads_witness :
    ((GetSelector "users" (.num 1)).run (.ok ())
      ([.next .seed, .dbSettled, .readSettled (.ok 7),
        .next (.event ⟨⟨"updated", .num 1, []⟩⟩), .next (.event ⟨⟨"deleted", .num 1, []⟩⟩),
        .dbSettled, .dbSettled] : List (Step Nat))).1.reads.length = 3 :=
  (get_store_reads Nat "users" (.num 1)
    [⟨⟨"updated", .num 1, []⟩⟩, ⟨⟨"inserted", .num 2, []⟩⟩, ⟨⟨"deleted", .num 1, []⟩⟩]
    [.next .seed, .dbSettled, .readSettled (.ok 7),
      .next (.event ⟨⟨"updated", .num 1, []⟩⟩), .next (.event ⟨⟨"deleted", .num 1, []⟩⟩),
      .dbSettled, .dbSettled] rfl rfl).1

/-- C7: the trigger filter of the plain `getAllKeys()` rejects an event whose operation is
`updated` and accepts one whose operation is `inserted` or `deleted`; so with the
database opened, once every trigger delivered has reached the store, the store has been
read `1 +` the number of inserted and deleted events times. -/
theorem getAllKeys_store_reads (V : Type) (storeName : String) (evs : List Event)
    (sched : List (Step V))
    (hs : sched.filter Step.isUpstream =
      upstreamSteps ((GetAllKeysSelector storeName).triggers evs))
    (hq : ((GetAllKeysSelector storeName).run (.ok ()) sched).1.awaitingDb = 0) :
    (∀ ev : Event, ev.result.operation = "updated" →
      passes (GetAllKeysSelector storeName).filters ev = .ok false) ∧
    (∀ ev : Event, ev.result.operation = "inserted" ∨ ev.result.operation = "deleted" →
      passes (GetAllKeysSelector storeName).filters ev = .ok true) ∧
    ((GetAllKeysSelector storeName).run (.ok ()) sched).1.reads.length =
      1 + (evs.filter (fun ev => decide (ev.result.operation = "inserted" ∨
        ev.result.operation = "deleted"))).length := by
  refine ⟨?_, ?_, ?_⟩
  · intro ev h
    rw [passes_getAllKeys]
    simp [resultIsInsertedOrDeleted, h]
  · intro ev h
    rw [passes_getAllKeys]
    rcases h with h | h <;> simp [resultIsInsertedOrDeleted, h]
  · have hr := reads_of_schedule (GetAllKeysSelector storeName) _ sched hs hq
    rw [triggers_of_total _ _ (fun ev _ => ⟨_, passes_getAllKeys storeName ev⟩)] at hr
    simp only [values, values_map_next, List.length_cons, List.length_map,
      passes_getAllKeys] at hr
    have hc : (evs.filter (fun ev => decide (Except.ok (resultIsInsertedOrDeleted ev)
        = (Except.ok true : Except JSError Bool)))) =
        evs.filter (fun ev => decide (ev.result.operation = "inserted" ∨
          ev.result.operation = "deleted")) := by
      congr 1
      funext ev
      simp [resultIsInsertedOrDeleted]
    rw [hc] at hr
    omega

/-- The hypotheses of `getAllKeys_store_reads` hold of a schedule over an inserted, an
updated and a deleted event, and the count is three. -/
theorem getAllKeys_store_reads_witness :
    ((GetAllKeysSelector "users").run (.ok ())
      ([.next .seed, .next (.event ⟨⟨"inserted", .num 1, []⟩⟩), .dbSettled, .dbSettled,
        .readSettled (.ok 0), .next (.event ⟨⟨"deleted", .num 1, []⟩⟩),
        .dbSettled] : List (Step Nat))).1.reads.length = 3 :=
  (getAllKeys_store_reads Nat "users"
    [⟨⟨"inserted", .num 1, []⟩⟩, ⟨⟨"updated", .num 1, []⟩⟩, ⟨⟨"deleted", .num 1, []⟩⟩]
    [.next .seed, .next (.event ⟨⟨"inserted", .num 1, []⟩⟩), .dbSettled, .dbSettled,
      .readSettled (.ok 0), .next (.event ⟨⟨"deleted", .num 1, []⟩⟩),
      .dbSettled] rfl rfl).2.2

/-- For a selector built by `DbSelector` and events on which its filter raises nothing,
the listener is triggered by the seed followed by exactly the events that the filter
accepts, in their order; so with the database opened, once every trigger has reached the
store, the store has been read once per accepted event and once for the seed: exactly
once for no events, and `1 + n` times for the `n` events of `getAll()`, which has no
filter. -/
theorem triggers_and_reads_of_total (V : Type) (sel : Selector) (evs : List Event)
    (sched : List (Step V))
    (hf : ∀ ev ∈ evs, ∃ b, passes sel.filters ev = .ok b)
    (hs : sched.filter Step.isUpstream = upstreamSteps (sel.triggers evs))
    (hq : (sel.run (.ok ()) sched).1.awaitingDb = 0) :
    sel.triggers evs = Notif.next Trigger.seed ::
      (evs.filter (fun ev => decide (passes sel.filters ev = .ok true))).map
        (fun ev => Notif.next (Trigger.event ev)) ∧
    (sel.run (.ok ()) sched).1.reads.length =
      1 + (evs.filter (fun ev => decide (passes sel.filters ev = .ok true))).length ∧
    (evs = [] → (sel.run (.ok ()) sched).1.reads.length = 1) ∧
    (∀ storeName : String, sel = GetAllSelector storeName →
      (sel.run (.ok ()) sched).1.reads.length = 1 + evs.length) := by
  have ht := triggers_of_total sel evs hf
  have hr := reads_of_schedule sel _ sched hs hq
  rw [ht] at hr
  simp only [values, values_map_next, List.length_cons, List.length_map] at hr
  refine ⟨ht, by omega, ?_, ?_⟩
  · intro he
    subst he
    simpa using hr
  · intro storeName hsel
    have hall : evs.filter (fun ev => decide (passes sel.filters ev = .ok true)) = evs := by
      rw [List.filter_eq_self]
      intro ev _
      simp [hsel, GetAllSelector, DbSelector, passes]
    rw [hall] at hr
    omega

/-- The hypotheses of `triggers_and_reads_of_total` hold of `getAll()` over two events,
read three times. -/
theorem triggers_and_reads_of_total_witness :
    ((GetAllSelector "users").run (.ok ())
      ([.next .seed, .dbSettled, .next (.event ⟨⟨"inserted", .num 1, []⟩⟩),
        .readSettled (.ok 0), .next (.event ⟨⟨"updated", .num 1, []⟩⟩), .dbSettled,
        .dbSettled, .readSettled (.ok 1)] : List (Step Nat))).1.reads.length = 1 + 2 :=
  (triggers_and_reads_of_total Nat (GetAllSelector "users")
    [⟨⟨"inserted", .num 1, []⟩⟩, ⟨⟨"updated", .num 1, []⟩⟩]
    [.next .seed, .dbSettled, .next (.event ⟨⟨"inserted", .num 1, []⟩⟩),
      .readSettled (.ok 0), .next (.event ⟨⟨"updated", .num 1, []⟩⟩), .dbSettled,
      .dbSettled, .readSettled (.ok 1)]
    (fun _ _ => ⟨true, rfl⟩) rfl rfl).2.2.2 "users" rfl

/-- C9: the triggers are the seed followed by exactly the accepted events, in order, for
every selector and events on which its filter raises nothing (once for no events, and
`1 + n` reads for the `n` events of `getAll()`), but not for every selector and every
sequence: the filter of the index-scoped get, getAll and count raises on an event
without the entry, which ends the trigger stream. For `index("byEmail").getAll("a@x.com")`
over such an event followed by an event that the filter accepts, the listener sees the
seed and the error, the accepted event never triggers, and the store is read once, not
twice; getAllKeys, which checks `hasOwnProperty` first, is triggered by the seed and
the accepted event. -/
theorem dbSelector_triggers_raising_filter :
    passes (IndexSelector.getAll "users" "byEmail" (.str "a@x.com")).filters
      ⟨⟨"inserted", .num 2, [("byEmail", ⟨.undefined, .str "a@x.com"⟩)]⟩⟩ = .ok true ∧
    (IndexSelector.getAll "users" "byEmail" (.str "a@x.com")).triggers
      [⟨⟨"deleted", .num 1, []⟩⟩,
       ⟨⟨"inserted", .num 2, [("byEmail", ⟨.undefined, .str "a@x.com"⟩)]⟩⟩]
      = [.next Trigger.seed, .error JSError.typeError] ∧
    (IndexSelector.getAll "users" "byEmail" (.str "a@x.com")).triggers
      [⟨⟨"deleted", .num 1, []⟩⟩,
       ⟨⟨"inserted", .num 2, [("byEmail", ⟨.undefined, .str "a@x.com"⟩)]⟩⟩]
      ≠ [.next Trigger.seed,
         .next (.event ⟨⟨"inserted", .num 2, [("byEmail", ⟨.undefined, .str "a@x.com"⟩)]⟩⟩)] ∧
    ((IndexSelector.getAll "users" "byEmail" (.str "a@x.com")).run (.ok ())
      ([.next .seed, .dbSettled, .readSettled (.ok 0),
        .error JSError.typeError] : List (Step Nat))).1 =
      { awaitingDb := 0, awaitingRead := 0,
        reads := [{ storeName := "users", indexName := some "byEmail",
                    operation := "getAll", key := .str "a@x.com" }] } ∧
    (IndexSelector.getAllKeys "users" "byEmail" (.str "a@x.com")).triggers
      [⟨⟨"deleted", .num 1, []⟩⟩,
       ⟨⟨"inserted", .num 2, [("byEmail", ⟨.undefined, .str "a@x.com"⟩)]⟩⟩]
      = [.next Trigger.seed,
         .next (.event ⟨⟨"inserted", .num 2, [("byEmail", ⟨.undefined, .str "a@x.com"⟩)]⟩⟩)] ∧
    (∀ (V : Type) (sel : Selector) (evs : List Event) (sched : List (Step V)),
      (∀ ev ∈ evs, ∃ b, passes sel.filters ev = .ok b) →
      sched.filter Step.isUpstream = upstreamSteps (sel.triggers evs) →
      (sel.run (.ok ()) sched).1.awaitingDb = 0 →
      sel.triggers evs = Notif.next Trigger.seed ::
        (evs.filter (fun ev => decide (passes sel.filters ev = .ok true))).map
          (fun ev => Notif.next (Trigger.event ev)) ∧
      (sel.run (.ok ()) sched).1.reads.length =
        1 + (evs.filter (fun ev => decide (passes sel.filters ev = .ok true))).length ∧
      (evs = [] → (sel.run (.ok ()) sched).1.reads.length = 1) ∧
      (∀ storeName : String, sel = GetAllSelector storeName →
        (sel.run (.ok ()) sched).1.reads.length = 1 + evs.length)) := by
  refine ⟨by decide, by decide, by decide, by decide, by decide, ?_⟩
  intro V sel evs sched hf hs hq
  exact triggers_and_reads_of_total V sel evs sched hf hs hq

/-! ## Adjacent deduplication of counts -/

/-- Collapsing runs keeps the first value in front. -/
theorem collapseRuns_cons {α : Type} [DecidableEq α] (x : α) (rest : List α) :
    ∃ t, collapseRuns (x :: rest) = x :: t := by
  induction rest with
  | nil => exact ⟨[], by simp [collapseRuns]⟩
  | cons y r ih =>
    by_cases h : x = y
    · obtain ⟨t, ht⟩ := ih
      exact ⟨t, by rw [collapseRuns, if_pos h, ht]⟩
    · exact ⟨_, by rw [collapseRuns, if_neg h]⟩

/-- After collapsing runs no two neighbours are equal. -/
theorem collapseRuns_chain {α : Type} [DecidableEq α] (l : List α) :
    List.Chain' (fun a b => a ≠ b) (collapseRuns l) := by
  induction l using collapseRuns.induct with
  | case1 => simp [collapseRuns]
  | case2 x => simp [collapseRuns]
  | case3 y rest ih => rw [collapseRuns, if_pos rfl]; exact ih
  | case4 x y rest h ih =>
    rw [collapseRuns, if_neg h]
    obtain ⟨t, ht⟩ := collapseRuns_cons y rest
    rw [ht] at ih ⊢
    exact List.Chain'.cons h ih

/-- A sequence without equal neighbours has no run to collapse. -/
theorem collapseRuns_of_chain {α : Type} [DecidableEq α] (l : List α)
    (h : List.Chain' (fun a b => a ≠ b) l) : collapseRuns l = l := by
  induction l using collapseRuns.induct with
  | case1 => simp [collapseRuns]
  | case2 x => simp [collapseRuns]
  | case3 y rest ih => simp at h
  | case4 x y rest hne ih =>
    rw [List.chain'_cons] at h
    rw [collapseRuns, if_neg hne, ih h.2]

/-- The operator that last passed on `a`, run over values, emits what collapsing the
runs of `a` followed by the values leaves after `a`. -/
theorem dropRepeatsFrom_some {α : Type} [DecidableEq α] (a : α) (l : List α) :
    Xs.dropRepeatsFrom (some a) (l.map Notif.next) =
      ((collapseRuns (a :: l)).tail).map Notif.next := by
  induction l generalizing a with
  | nil => simp [Xs.dropRepeatsFrom, collapseRuns]
  | cons t rest ih =>
    simp only [List.map_cons, Xs.dropRepeatsFrom]
    by_cases h : a = t
    · subst h
      rw [if_pos rfl, ih a, collapseRuns.eq_3, if_pos rfl]
    · have hs : ¬ (some a = some t) := fun hh => h (Option.some.inj hh)
      obtain ⟨tl, htl⟩ := collapseRuns_cons t rest
      rw [if_neg hs, ih t, collapseRuns.eq_3, if_neg h, htl]
      simp

/-- On values, `dropRepeats()` collapses each run of equal neighbours to its first. -/
theorem dropRepeats_values {α : Type} [DecidableEq α] (l : List α) :
    Xs.dropRepeats (l.map Notif.next) = (collapseRuns l).map Notif.next := by
  cases l with
  | nil => simp [Xs.dropRepeats, Xs.dropRepeatsFrom, collapseRuns]
  | cons t rest =>
    obtain ⟨tl, htl⟩ := collapseRuns_cons t rest
    simp [Xs.dropRepeats, Xs.dropRepeatsFrom, dropRepeatsFrom_some, htl]

/-- Values alone are all delivered. -/
theorem delivered_values {α : Type} (l : List α) :
    Xs.delivered (l.map Notif.next) = l.map Notif.next := by
  induction l with
  | nil => rfl
  | cons a rest ih => simp [Xs.delivered, ih]

/-- C6: for every sequence of successful reads of a live `count()`, plain or
index-scoped, the values emitted to the observers are the reads with each run of equal
neighbours collapsed to its first element: no two consecutive emitted values are equal,
the first read is emitted, reads without equal neighbours are all emitted (a value equal
to an earlier, non-adjacent one included, as the second `3` of `3, 4, 4, 3`). -/
theorem count_emits_collapsed_runs (V : Type) [DecidableEq V] (storeName indexName : String)
    (key : JSVal) (reads : List V) :
    (CountSelector storeName).emitted (reads.map Notif.next) =
      (collapseRuns reads).map Notif.next ∧
    (IndexSelector.count storeName indexName key).emitted (reads.map Notif.next) =
      (collapseRuns reads).map Notif.next ∧
    List.Chain' (fun a b => a ≠ b) (collapseRuns reads) ∧
    (collapseRuns reads).head? = reads.head? ∧
    (List.Chain' (fun a b => a ≠ b) reads → collapseRuns reads = reads) ∧
    (CountSelector "users").emitted ([3, 4, 4, 3].map (fun n : Int => Notif.next n)) =
      [3, 4, 3].map (fun n : Int => Notif.next n) := by
  refine ⟨?_, ?_, collapseRuns_chain reads, ?_, collapseRuns_of_chain reads, by decide⟩
  · simp [Selector.emitted, CountSelector, Selector.composeDropRepeats, DbSelector,
      delivered_values, dropRepeats_values]
  · simp [Selector.emitted, IndexSelector.count, Selector.composeDropRepeats, DbSelector,
      delivered_values, dropRepeats_values]
  · cases reads with
    | nil => simp [collapseRuns]
    | cons t rest =>
      obtain ⟨tl, htl⟩ := collapseRuns_cons t rest
      simp [htl]

/-! ## Results and errors of the store re-readers -/

/-- A stream without listeners hands nothing to anyone, whatever is called on it. -/
theorem feed_of_no_listener {O V : Type} (calls : List (Notif V)) (m : MemStream O V)
    (h : m.ils = []) : (m.feed calls).ils = [] ∧ (m.feed calls).log = m.log := by
  induction calls generalizing m with
  | nil => exact ⟨h, rfl⟩
  | cons c rest ih =>
    cases c with
    | next data =>
      have h1 : (m.next data).ils = [] := by simp [MemStream.next, h]
      have h2 : (m.next data).log = m.log := by simp [MemStream.next, h]
      have := ih (m.next data) h1
      simp only [MemStream.feed]
      exact ⟨this.1, this.2.trans h2⟩
    | error e =>
      have h1 : (m.error e).ils = [] ∧ (m.error e).log = m.log := by
        unfold MemStream.error
        cases m.err <;> simp [h]
      have := ih (m.error e) h1.1
      simp only [MemStream.feed]
      exact ⟨this.1, this.2.trans h1.2⟩

/-- A subscription whose stream has no listeners hands nothing to anyone any more. -/
theorem run_of_no_listener {O V : Type} (sel : Selector) (dbPromise : Except JSError Unit)
    (sched : List (Step V)) (q : LiveQuery O V) (h : q.listener.ils = []) :
    (LiveQuery.run sel dbPromise q sched).listener.log = q.listener.log := by
  induction sched generalizing q with
  | nil => rfl
  | cons st rest ih =>
    have h1 := feed_of_no_listener
      (listenerStep sel.Listener dbPromise sel.options q.reader st).2 q.listener h
    simp only [LiveQuery.run]
    rw [ih (LiveQuery.step sel dbPromise q st) h1.1]
    exact h1.2

/-- An error called on a stream that has none recorded is handed to every listener, and
they are all removed. -/
theorem error_of_no_record {O V : Type} (m : MemStream O V) (e : JSError)
    (h : m.err = none) :
    (m.error e).ils = [] ∧
      (m.error e).log = m.log ++ m.ils.map (fun o => (o, Notif.error e)) := by
  unfold MemStream.error
  rw [h]
  cases hi : m.ils <;> simp

/-- C8: for both store re-readers, on a stream that has no error recorded: a read that
succeeds hands exactly the value returned to the observers; a read that fails, or a
database that cannot be opened (in which case no store request is made), hands the error
to the observers and nothing else, and nothing is handed to them for any later step,
as they are detached by the error. -/
theorem listener_result_or_terminal_error (O V : Type) (sel : Selector)
    (dbPromise : Except JSError Unit) (q : LiveQuery O V) (hm : q.listener.err = none) :
    (∀ data : V, 0 < q.reader.awaitingRead →
      (LiveQuery.step sel dbPromise q (.readSettled (.ok data))).listener.log =
        q.listener.log ++ q.listener.ils.map (fun o => (o, Notif.next data))) ∧
    (∀ e : JSError, 0 < q.reader.awaitingRead →
      (LiveQuery.step sel dbPromise q (.readSettled (.error e))).listener.log =
        q.listener.log ++ q.listener.ils.map (fun o => (o, Notif.error e)) ∧
      ∀ sched : List (Step V),
        (LiveQuery.run sel dbPromise
          (LiveQuery.step sel dbPromise q (.readSettled (.error e))) sched).listener.log =
        (LiveQuery.step sel dbPromise q (.readSettled (.error e))).listener.log) ∧
    (∀ e : JSError, dbPromise = .error e → 0 < q.reader.awaitingDb →
      (LiveQuery.step sel dbPromise q .dbSettled).reader.reads = q.reader.reads ∧
      (LiveQuery.step sel dbPromise q .dbSettled).listener.log =
        q.listener.log ++ q.listener.ils.map (fun o => (o, Notif.error e)) ∧
      ∀ sched : List (Step V),
        (LiveQuery.run sel dbPromise
          (LiveQuery.step sel dbPromise q .dbSettled) sched).listener.log =
        (LiveQuery.step sel dbPromise q .dbSettled).listener.log) := by
  have herr := fun e => error_of_no_record q.listener e hm
  refine ⟨?_, ?_, ?_⟩
  · intro data hpos
    have h0 : q.reader.awaitingRead ≠ 0 := by omega
    cases hk : sel.Listener <;>
      simp [LiveQuery.step, listenerStep, ReadDbListener, ReadDbIndexListener, hk, h0,
        MemStream.feed, MemStream.next]
  · intro e hpos
    have h0 : q.reader.awaitingRead ≠ 0 := by omega
    have hl : (LiveQuery.step sel dbPromise q (.readSettled (.error e))).listener =
        q.listener.error e := by
      cases hk : sel.Listener <;>
        simp [LiveQuery.step, listenerStep, ReadDbListener, ReadDbIndexListener, hk, h0,
          MemStream.feed]
    refine ⟨by rw [hl]; exact (herr e).2, fun sched => ?_⟩
    exact run_of_no_listener sel dbPromise sched _ (by rw [hl]; exact (herr e).1)
  · intro e hdb hpos
    have h0 : q.reader.awaitingDb ≠ 0 := by omega
    have hl : (LiveQuery.step sel dbPromise q .dbSettled).listener = q.listener.error e ∧
        (LiveQuery.step sel dbPromise q .dbSettled).reader.reads = q.reader.reads := by
      cases hk : sel.Listener <;>
        simp [LiveQuery.step, listenerStep, ReadDbListener, ReadDbIndexListener, hk, h0,
          hdb, MemStream.feed]
    refine ⟨hl.2, by rw [hl.1]; exact (herr e).2, fun sched => ?_⟩
    exact run_of_no_listener sel dbPromise sched _ (by rw [hl.1]; exact (herr e).1)

/-- The hypothesis of `listener_result_or_terminal_error` holds of a subscription with two
observers whose seed read fails: both are handed the error, and a later trigger, read
with success, hands them nothing. -/
theorem listener_result_or_terminal_error_witness :
    (LiveQuery.run (GetAllSelector "users") (.ok ())
      (⟨ListenerState.init, ⟨["a", "b"], none, none, []⟩⟩ : LiveQuery String Nat)
      [.next .seed, .dbSettled, .readSettled (.error (.storeError "aborted")),
       .next (.event ⟨⟨"inserted", .num 1, []⟩⟩), .dbSettled,
       .readSettled (.ok 1)]).listener.log =
    [("a", Notif.error (.storeError "aborted")), ("b", Notif.error (.storeError "aborted"))] :=
  ((listener_result_or_terminal_error String Nat (GetAllSelector "users") (.ok ())
    (LiveQuery.run (GetAllSelector "users") (.ok ())
      ⟨ListenerState.init, ⟨["a", "b"], none, none, []⟩⟩ [.next .seed, .dbSettled])
    rfl).2.1 (.storeError "aborted") (by decide)).2
    [.next (.event ⟨⟨"inserted", .num 1, []⟩⟩), .dbSettled, .readSettled (.ok 1)]

/-! ## Outstanding reads of one listener -/

/-- A schedule in two parts. -/
theorem runListener_append {V : Type} (kind : ListenerKind) (dbPromise : Except JSError Unit)
    (options : Options) (s : ListenerState) (a b : List (Step V)) :
    (runListener kind dbPromise options s (a ++ b)).1 =
      (runListener kind dbPromise options (runListener kind dbPromise options s a).1 b).1 := by
  induction a generalizing s with
  | nil => rfl
  | cons st rest ih => simp [runListener, ih]

/-- Triggers that arrive suspend one invocation each at `await dbPromise`. -/
theorem run_triggers {V : Type} (kind : ListenerKind) (dbPromise : Except JSError Unit)
    (options : Options) (t : Trigger) (n : Nat) (s : ListenerState) :
    (runListener kind dbPromise options s (List.replicate n (Step.next t : Step V))).1 =
      { s with awaitingDb := s.awaitingDb + n } := by
  induction n generalizing s with
  | zero => rfl
  | succ n ih =>
    cases kind <;>
      simp [List.replicate, runListener, listenerStep, ReadDbListener, ReadDbIndexListener,
        ih] <;> omega

/-- With the database opened, each invocation resumed from `await dbPromise` makes its
store request at once, whatever the number of requests outstanding. -/
theorem run_dbSettled {V : Type} (kind : ListenerKind) (options : Options) (n : Nat)
    (s : ListenerState) (h : n ≤ s.awaitingDb) :
    (runListener kind (.ok ()) options s
        (List.replicate n (Step.dbSettled : Step V))).1.awaitingRead = s.awaitingRead + n ∧
    (runListener kind (.ok ()) options s
        (List.replicate n (Step.dbSettled : Step V))).1.reads.length = s.reads.length + n := by
  induction n generalizing s with
  | zero => exact ⟨rfl, rfl⟩
  | succ n ih =>
    have h0 : s.awaitingDb ≠ 0 := by omega
    cases kind
    · have := ih (ReadDbListener (.ok ()) options s (Step.dbSettled : Step V)).1
        (by simp [ReadDbListener, h0]; omega)
      simp only [List.replicate, runListener, listenerStep]
      simp [ReadDbListener, h0] at this ⊢
      omega
    · have := ih (ReadDbIndexListener (.ok ()) options s (Step.dbSettled : Step V)).1
        (by simp [ReadDbIndexListener, h0]; omega)
      simp only [List.replicate, runListener, listenerStep]
      simp [ReadDbIndexListener, h0] at this ⊢
      omega

/-- Invocations resumed from `await dbPromise` no longer wait for the database. -/
theorem run_dbSettled_waiting {V : Type} (kind : ListenerKind) (options : Options) (n : Nat)
    (s : ListenerState) (h : n ≤ s.awaitingDb) :
    (runListener kind (.ok ()) options s
        (List.replicate n (Step.dbSettled : Step V))).1.awaitingDb = s.awaitingDb - n := by
  induction n generalizing s with
  | zero => rfl
  | succ n ih =>
    have h0 : s.awaitingDb ≠ 0 := by omega
    cases kind
    · have := ih (ReadDbListener (.ok ()) options s (Step.dbSettled : Step V)).1
        (by simp [ReadDbListener, h0]; omega)
      simp only [List.replicate, runListener, listenerStep]
      simp [ReadDbListener, h0] at this ⊢
      omega
    · have := ih (ReadDbIndexListener (.ok ()) options s (Step.dbSettled : Step V)).1
        (by simp [ReadDbIndexListener, h0]; omega)
      simp only [List.replicate, runListener, listenerStep]
      simp [ReadDbIndexListener, h0] at this ⊢
      omega

/-- The notifications of a trigger stream suspend one invocation per value. -/
theorem run_upstream {V : Type} (kind : ListenerKind) (dbPromise : Except JSError Unit)
    (options : Options) (trig : List (Notif Trigger)) (s : ListenerState) :
    (runListener kind dbPromise options s (upstreamSteps trig : List (Step V))).1 =
      { s with awaitingDb := s.awaitingDb + (values trig).length } := by
  induction trig generalizing s with
  | nil => rfl
  | cons n rest ih =>
    cases n <;> cases kind <;>
      simp [upstreamSteps, runListener, listenerStep, ReadDbListener, ReadDbIndexListener,
        values, ih] <;> omega

/-- The steps of a trigger stream are upstream steps. -/
theorem filter_upstreamSteps {V : Type} (trig : List (Notif Trigger)) :
    (upstreamSteps trig : List (Step V)).filter Step.isUpstream = upstreamSteps trig := by
  induction trig with
  | nil => rfl
  | cons n rest ih => cases n <;> simp [upstreamSteps, Step.isUpstream, ih]

/-- Every trigger stream has a schedule that delivers it and lets every invocation reach
the store: the one in which all triggers arrive before the database is awaited. -/
theorem schedule_exists (V : Type) (sel : Selector) (trig : List (Notif Trigger)) :
    ∃ sched : List (Step V),
      sched.filter Step.isUpstream = upstreamSteps trig ∧
      (sel.run (.ok ()) sched).1.awaitingDb = 0 := by
  refine ⟨upstreamSteps trig ++ List.replicate (values trig).length Step.dbSettled, ?_, ?_⟩
  · rw [List.filter_append, filter_upstreamSteps]
    have : (List.replicate (values trig).length (Step.dbSettled : Step V)).filter
        Step.isUpstream = [] := by
      rw [List.filter_eq_nil_iff]
      intro a ha
      rw [List.eq_of_mem_replicate ha]
      simp [Step.isUpstream]
    rw [this, List.append_nil]
  · simp only [Selector.run]
    rw [runListener_append, run_upstream, run_dbSettled_waiting]
    · simp [ListenerState.init]
    · simp [ListenerState.init]

/-- The reads of one listener are not serialized: with the database opened, two reads
of a live `get("k1")` are outstanding once a matching event has arrived while the seed
read is in flight. -/
theorem two_reads_outstanding :
    ¬ ((GetSelector "users" (.str "k1")).run (.ok ())
      ([.next .seed, .dbSettled, .next (.event ⟨⟨"updated", .str "k1", []⟩⟩),
        .dbSettled] : List (Step Nat))).1.awaitingRead ≤ 1 := by
  decide

/-- C10, as the code has it: a listener queues nothing. With the database opened, the
store request of a trigger is made as soon as its invocation resumes from
`await dbPromise`, whether or not earlier requests are outstanding: `n` triggers that
arrive before any read completes leave `n` reads outstanding. -/
theorem reads_issued_without_queueing (V : Type) (sel : Selector) (t : Trigger) (n : Nat) :
    (sel.run (.ok ()) (List.replicate n (Step.next t) ++
        List.replicate n (Step.dbSettled : Step V))).1.awaitingRead = n ∧
    (sel.run (.ok ()) (List.replicate n (Step.next t) ++
        List.replicate n (Step.dbSettled : Step V))).1.reads.length = n := by
  simp only [Selector.run]
  rw [runListener_append, run_triggers]
  have h := @run_dbSettled V sel.Listener sel.options n
    { ListenerState.init with awaitingDb := ListenerState.init.awaitingDb + n }
    (by simp)
  simpa [ListenerState.init] using h

/-! ## The producer across detachment -/

/-- Updating an element keeps the length. -/
theorem length_updateAt {α : Type} (f : α → α) (l : List α) (j : Nat) :
    (updateAt f l j).length = l.length := by
  induction l generalizing j with
  | nil => rfl
  | cons a rest ih => cases j <;> simp [updateAt, ih]

/-- Updating an element by a function that keeps a measure keeps the sum of the measure. -/
theorem sum_updateAt {α : Type} (f : α → α) (g : α → Nat) (hg : ∀ a, g (f a) = g a)
    (l : List α) (j : Nat) : ((updateAt f l j).map g).sum = (l.map g).sum := by
  induction l generalizing j with
  | nil => rfl
  | cons a rest ih => cases j <;> simp [updateAt, ih, hg]

/-- With the database opened, the reads triggered at the producer grow by one with a run
of `start`, by the number of registered listeners with an event, and not otherwise. -/
theorem triggered_step {V : Type} (kind : ListenerKind) (options : Options) (p : Producer)
    (st : ProducerStep V) :
    (Producer.step kind (.ok ()) options p st).triggered = p.triggered +
      (match st with
       | .start => 1
       | .result _ => p.registered.length
       | _ => 0) := by
  cases st with
  | start =>
    cases kind <;>
      simp [Producer.step, Producer.triggered, listenerStep, ReadDbListener,
        ReadDbIndexListener, ListenerState.init]
  | stop => simp [Producer.step]
  | result ev =>
    simp only [Producer.step, Producer.triggered, List.map_map]
    generalize p.registered = l
    induction l with
    | nil => rfl
    | cons a rest ih =>
      have h := listenerStep_reads kind options a (Step.next (Trigger.event ev) : Step V)
      simp only [Step.isNext, if_true] at h
      simp only [List.map_cons, List.sum_cons, Function.comp, List.length_cons] at ih ⊢
      omega
  | dbSettled j =>
    simp only [Producer.step, Producer.triggered]
    rw [sum_updateAt]
    · rfl
    · intro a
      simpa [Step.isNext] using listenerStep_reads kind options a (Step.dbSettled : Step V)
  | readSettled j r =>
    simp only [Producer.step, Producer.triggered]
    rw [sum_updateAt]
    · rfl
    · intro a
      simpa [Step.isNext] using listenerStep_reads kind options a (Step.readSettled r)

/-- Only a run of `start` changes the number of registered listeners, adding one. -/
theorem registered_step {V : Type} (kind : ListenerKind) (dbPromise : Except JSError Unit)
    (options : Options) (p : Producer) (st : ProducerStep V) :
    (Producer.step kind dbPromise options p st).registered.length =
      p.registered.length + countStarts [st] := by
  cases st <;> simp [Producer.step, countStarts, length_updateAt]

/-- The registered listeners are as many as `start` has run: none is ever removed. -/
theorem registered_run {V : Type} (kind : ListenerKind) (dbPromise : Except JSError Unit)
    (options : Options) (sched : List (ProducerStep V)) (p : Producer) :
    (Producer.run kind dbPromise options p sched).registered.length =
      p.registered.length + countStarts sched := by
  induction sched generalizing p with
  | nil => rfl
  | cons st rest ih =>
    simp only [Producer.run]
    rw [ih, registered_step]
    cases st <;> simp [countStarts]
    omega

/-- With the database opened, the reads made once every invocation suspended at
`await dbPromise` has resumed are the reads triggered. -/
theorem settle_reads (V : Type) (kind : ListenerKind) (options : Options) (p : Producer) :
    (Producer.settle V kind (.ok ()) options p).totalReads = p.triggered := by
  simp only [Producer.settle, Producer.totalReads, Producer.triggered, List.map_map]
  generalize p.registered = l
  induction l with
  | nil => rfl
  | cons a rest ih =>
    have h := (@run_dbSettled V kind options a.awaitingDb a (Nat.le_refl _)).2
    simp only [List.map_cons, List.sum_cons, Function.comp] at ih ⊢
    omega

/-- The producer of a live `get("k1")` after its only observer has detached and `stop` has
run: a matching event still makes a store read, and after a fresh observer has run
`start` again one matching event makes two. -/
theorem reads_after_stop :
    Producer.totalReads (Producer.run .ReadDbListener (.ok ())
      (GetSelector "users" (.str "k1")).options ⟨[]⟩
      ([.start, .dbSettled 0, .readSettled 0 (.ok 7), .stop] : List (ProducerStep Nat))) = 1 ∧
    Producer.totalReads (Producer.run .ReadDbListener (.ok ())
      (GetSelector "users" (.str "k1")).options ⟨[]⟩
      ([.start, .dbSettled 0, .readSettled 0 (.ok 7), .stop,
        .result ⟨⟨"updated", .str "k1", []⟩⟩, .dbSettled 0] : List (ProducerStep Nat))) = 2 ∧
    Producer.totalReads (Producer.run .ReadDbListener (.ok ())
      (GetSelector "users" (.str "k1")).options ⟨[]⟩
      ([.start, .dbSettled 0, .readSettled 0 (.ok 7), .stop,
        .start, .dbSettled 1, .readSettled 1 (.ok 7)] : List (ProducerStep Nat))) = 2 ∧
    Producer.totalReads (Producer.run .ReadDbListener (.ok ())
      (GetSelector "users" (.str "k1")).options ⟨[]⟩
      ([.start, .dbSettled 0, .readSettled 0 (.ok 7), .stop,
        .start, .dbSettled 1, .readSettled 1 (.ok 7),
        .result ⟨⟨"updated", .str "k1", []⟩⟩, .dbSettled 0,
        .dbSettled 1] : List (ProducerStep Nat))) = 4 := by
  decide

/-- C5, as the code has it: `stop` of the producer does nothing, so every listener that a
run of `start` has registered stays registered when the last observer has detached.
With the database opened, after any schedule a matching event makes one store read for
every run of `start` so far, and a further run of `start`, for a fresh observer, makes
exactly one, the seed's. -/
theorem stop_keeps_listeners (V : Type) (kind : ListenerKind) (options : Options)
    (sched : List (ProducerStep V)) (ev : Event) :
    (∀ (dbPromise : Except JSError Unit) (p : Producer),
      Producer.step kind dbPromise options p (ProducerStep.stop : ProducerStep V) = p) ∧
    (Producer.run kind (.ok ()) options ⟨[]⟩ sched).registered.length = countStarts sched ∧
    (Producer.settle V kind (.ok ()) options
      (Producer.step kind (.ok ()) options (Producer.run kind (.ok ()) options ⟨[]⟩ sched)
        (ProducerStep.result ev : ProducerStep V))).totalReads =
      (Producer.settle V kind (.ok ()) options
        (Producer.run kind (.ok ()) options ⟨[]⟩ sched)).totalReads + countStarts sched ∧
    (Producer.settle V kind (.ok ()) options
      (Producer.step kind (.ok ()) options (Producer.run kind (.ok ()) options ⟨[]⟩ sched)
        (ProducerStep.start : ProducerStep V))).totalReads =
      (Producer.settle V kind (.ok ()) options
        (Producer.run kind (.ok ()) options ⟨[]⟩ sched)).totalReads + 1 := by
  have hl := registered_run kind (.ok ()) options sched ⟨[]⟩
  simp only [List.length_nil, Nat.zero_add] at hl
  refine ⟨fun _ _ => rfl, hl, ?_, ?_⟩
  · rw [settle_reads, settle_reads, triggered_step, hl]
  · rw [settle_reads, settle_reads, triggered_step]

end CycleIdb
